import Mathlib

/-!
Verification of the zellij web-client gateway (`zellij-client/src/web_client.rs`)
against its natural-language specification.

The Rust code is shallowly embedded: pure helpers become Lean functions, the
event loops become structural recursion over finite traces of received items,
and side effects (sends on the server IPC handle, pushes onto the render
channel, registry mutation) become explicit result lists and returned state.
Functions the file imports from elsewhere in the workspace or from external
crates (the kitty keyboard parser, the termwiz input parser,
`cast_termwiz_key`, `from_termwiz`, `serde_json`, theme lookup, palette
loading, terminal-size query) are kept abstract as parameters: the claims
under scrutiny only concern the control flow of `web_client.rs` around them.
-/

namespace WebClient

/-! ## Data model

Abstract stand-ins for types whose internals `web_client.rs` never inspects.
Each is a one-field structure so that everything stays decidable and
executable. -/

/-- A decoded key with modifiers (`KeyWithModifier`); opaque to the gateway. -/
structure KeyWithModifier where
  code : Nat
deriving DecidableEq, Repr

/-- Zellij's own mouse-event type (`zellij_utils::input::mouse::MouseEvent`);
used both as the per-channel carry state (`mouse_old_event`) and as the
payload of `Action::MouseEvent`. Opaque to the gateway. -/
structure ZMouseEvent where
  state : Nat
deriving DecidableEq, Repr

/-- Model of `MouseEvent::new()`, the initial carry state. -/
def ZMouseEvent.new : ZMouseEvent := ⟨0⟩

/-- A termwiz key event; opaque. -/
structure TwKeyEvent where
  code : Nat
deriving DecidableEq, Repr

/-- A termwiz mouse event; opaque. -/
structure TwMouseEvent where
  code : Nat
deriving DecidableEq, Repr

/-- Model of `termwiz::input::InputEvent`: the events the generic terminal input
parser may emit. The catch-all `Other` covers every variant the gateway
logs and drops. -/
inductive InputEvent where
  | Key : TwKeyEvent → InputEvent
  | Mouse : TwMouseEvent → InputEvent
  | Other : Nat → InputEvent
deriving DecidableEq, Repr

/-- A color palette; opaque. -/
structure Palette where
  id : Nat
deriving DecidableEq, Repr

/-- A terminal size (`full_screen_ws`). -/
structure Size where
  rows : Nat
  cols : Nat
deriving DecidableEq, Repr

/-- Model of `zellij_utils::data::Style`, as constructed in `zellij_server_listener`. -/
structure Style where
  colors : Palette
  rounded_corners : Bool
  hide_session_name : Bool
deriving DecidableEq, Repr

/-- Model of `ClientAttributes`: size plus style, sent in `AttachClient`. -/
structure ClientAttributes where
  size : Size
  style : Style
deriving DecidableEq, Repr

/-- The `config.ui.pane_frames` fields read by `zellij_server_listener`. -/
structure PaneFrames where
  rounded_corners : Bool
  hide_session_name : Bool
deriving DecidableEq, Repr

/-- The `config.ui` field. -/
structure UiConfig where
  pane_frames : PaneFrames
deriving DecidableEq, Repr

/-- The configuration options read by `web_client.rs`: the tri-state kitty
keyboard flag and the theme name (the latter opaque, as a numeric token). -/
structure Options where
  support_kitty_keyboard_protocol : Option Bool
  theme : Option Nat
deriving DecidableEq, Repr

/-- The configuration fields read by `web_client.rs`. -/
structure Config where
  options : Options
  ui : UiConfig
deriving DecidableEq, Repr

/-- Model of `Action`: only the `MouseEvent` variant is ever built here. -/
inductive Action where
  | MouseEvent : ZMouseEvent → Action
deriving DecidableEq, Repr

/-- The server-bound messages `web_client.rs` constructs
(`ClientToServerMsg`). The two `Option Unit` slots stand for the two
always-`None` arguments of `AttachClient` and `Action`. -/
inductive ClientToServerMsg where
  | AttachClient : ClientAttributes → Config → Options → Option Unit → Option Unit →
      Bool → ClientToServerMsg
  | Key : KeyWithModifier → List UInt8 → Bool → ClientToServerMsg
  | Action : Action → Option Unit → Option Unit → ClientToServerMsg
  | ClientExited : ClientToServerMsg
deriving DecidableEq, Repr

/-- Model of `ExitReason`: the listener loop only distinguishes `Error` from the
rest, so the remaining variants are collapsed into an opaque tag. -/
inductive ExitReason where
  | Error : String → ExitReason
  | Other : Nat → ExitReason
deriving DecidableEq, Repr

/-- The server messages the listener loop matches on (`ServerToClientMsg`);
variants other than `Exit` and `Render` fall into the loop's `_` arm and are
collapsed into an opaque tag. -/
inductive ServerToClientMsg where
  | Exit : ExitReason → ServerToClientMsg
  | Render : String → ServerToClientMsg
  | Other : Nat → ServerToClientMsg
deriving DecidableEq, Repr

/-- UTF-8 bytes of a string (Rust `str::as_bytes`). -/
def stringBytes (s : String) : List UInt8 := s.toUTF8.toList

/-! ## Input decoder (`parse_stdin`)

The kitty parser, the termwiz parser, `cast_termwiz_key` and `from_termwiz`
live outside `web_client.rs`; they are abstracted as the fields of
`StdinDeps`. `from_termwiz(&mut old, ev)` both returns an event and writes
back through its `&mut` argument, so its model returns both values. -/

/-- Result of `from_termwiz`: the returned event and the value written back
into `mouse_old_event`. -/
structure FromTermwizOut where
  event : ZMouseEvent
  carry : ZMouseEvent

/-- The external functions `parse_stdin` calls. -/
structure StdinDeps where
  kittyParse : List UInt8 → Option KeyWithModifier
  termwizParse : List UInt8 → List InputEvent
  cast_termwiz_key : TwKeyEvent → List UInt8 → Option Unit → KeyWithModifier
  from_termwiz : ZMouseEvent → TwMouseEvent → FromTermwizOut

/-- The second phase of `parse_stdin`: the `for (i, input_event) in events`
loop. Key events emit `Key(key, buf, false)`; mouse events are folded
through the carry state and emit `Action(MouseEvent(ev), None, None)`;
anything else is logged and dropped. Returns the emitted messages in order
and the final carry state. -/
def legacyEvents (deps : StdinDeps) (buf : List UInt8) :
    List InputEvent → ZMouseEvent → List ClientToServerMsg × ZMouseEvent
  | [], carry => ([], carry)
  | .Key key_event :: rest, carry =>
      let key := deps.cast_termwiz_key key_event buf none
      let x := legacyEvents deps buf rest carry
      (.Key key buf false :: x.1, x.2)
  | .Mouse mouse_event :: rest, carry =>
      let o := deps.from_termwiz carry mouse_event
      let x := legacyEvents deps buf rest o.carry
      (.Action (.MouseEvent o.event) none none :: x.1, x.2)
  | .Other _ :: rest, carry => legacyEvents deps buf rest carry

/-- Model of `parse_stdin(buf, os_input, mouse_old_event,
explicitly_disable_kitty_keyboard_protocol)`: returns the messages sent to
the server through the handle, in order, and the final carry state. -/
def parse_stdin (deps : StdinDeps) (buf : List UInt8) (mouse_old_event : ZMouseEvent)
    (explicitly_disable_kitty_keyboard_protocol : Bool) :
    List ClientToServerMsg × ZMouseEvent :=
  if !explicitly_disable_kitty_keyboard_protocol then
    match deps.kittyParse buf with
    | some key_with_modifier =>
        ([.Key key_with_modifier buf true], mouse_old_event)
    | none => legacyEvents deps buf (deps.termwizParse buf) mouse_old_event
  else
    legacyEvents deps buf (deps.termwizParse buf) mouse_old_event

/-! ## Asset server (`get_static_asset`, `get_mime_type`) -/

/-- Model of `get_mime_type`: content type chosen by extension, faithful to the Rust
match (string equality chain). -/
def get_mime_type : Option String → String
  | none => "text/plain"
  | some ext =>
    if ext = "html" then "text/html"
    else if ext = "css" then "text/css"
    else if ext = "js" then "application/javascript"
    else if ext = "wasm" then "application/wasm"
    else if ext = "png" then "image/png"
    else if ext = "ico" then "image/x-icon"
    else if ext = "svg" then "image/svg+xml"
    else "text/plain"

/-- One file of the embedded asset tree (`include_dir::File`): its relative
path and its contents. -/
structure AssetFile where
  path : String
  contents : List UInt8
deriving DecidableEq, Repr

/-- The embedded asset tree (`ASSETS_DIR`). -/
structure AssetsDir where
  files : List AssetFile
deriving DecidableEq, Repr

/-- Model of `Dir::get_file`: look a file up by its relative path. -/
def AssetsDir.get_file (d : AssetsDir) (p : String) : Option AssetFile :=
  d.files.find? (fun f => f.path = p)

/-- Rust `str::trim_start_matches('/')`: drop every leading `/`. -/
def trimStartSlash : List Char → List Char
  | [] => []
  | c :: cs => if c = '/' then trimStartSlash cs else c :: cs

/-- The file-name component of a path: everything after the last `/`. -/
def fileNameOf (p : List Char) : List Char :=
  (p.reverse.takeWhile (fun c => c ≠ '/')).reverse

/-- Rust `Path::extension`: `none` when the file name is empty, `.` or `..`,
or contains no `.`, or its only `.` is the leading character (hidden files);
otherwise the part after the last `.`. -/
def rust_extension (p : List Char) : Option (List Char) :=
  let name := fileNameOf p
  if name = ['.'] ∨ name = ['.', '.'] then none
  else
    let fromLastDotRev := name.reverse.dropWhile (fun c => c ≠ '.')
    if fromLastDotRev = [] then none
    else if fromLastDotRev.length = 1 then none
    else some ((name.reverse.takeWhile (fun c => c ≠ '.')).reverse)

/-- An HTTP response as built by `get_static_asset`: the `CONTENT_TYPE`
header value and the body bytes. -/
structure HttpResponse where
  content_type : String
  body : List UInt8
deriving DecidableEq, Repr

/-- Model of `get_static_asset`: trim leading slashes, look the path up in the
embedded tree; absent → `"Not Found"` with `text/html`, present → the file
bytes with the extension-derived content type. -/
def get_static_asset (dir : AssetsDir) (path : String) : HttpResponse :=
  let p := String.mk (trimStartSlash path.data)
  match dir.get_file p with
  | none => { content_type := "text/html", body := stringBytes "Not Found" }
  | some file =>
      let ext := (rust_extension file.path.data).map String.mk
      { content_type := get_mime_type ext, body := file.contents }

/-! ## Server listener (`zellij_server_listener`)

The function pushes a fixed preamble onto the render channel, composes the
client attributes, connects and sends `AttachClient`, then spawns a thread
whose loop matches on `recv_from_server()`. The loop is embedded as
structural recursion over a finite trace of `recv` results (`none` models a
`recv` that yields `None`); consuming the whole trace without hitting a
`break` leaves the loop `running` (it would call `recv` again). -/

def clear_client_terminal_attributes : String :=
  "\x1b[?1l\x1b=\x1b[r\x1b[?1000l\x1b[?1002l\x1b[?1003l\x1b[?1005l\x1b[?1006l\x1b[?12l"

def enter_alternate_screen : String := "\x1b[?1049h"

def bracketed_paste : String := "\x1b[?2004h"

def enter_kitty_keyboard_mode : String := "\x1b[>1u"

def enable_mouse_mode : String := "\x1b[?1000h\x1b[?1002h\x1b[?1015h\x1b[?1006h"

/-- The five preamble strings, in the push order of the source
(attributes, alternate screen, bracketed paste, mouse modes, kitty mode). -/
def preamble : List String :=
  [clear_client_terminal_attributes, enter_alternate_screen, bracketed_paste,
   enable_mouse_mode, enter_kitty_keyboard_mode]

/-- Whether the listener loop broke out (`exited`) within the trace or is
still iterating (`running`). -/
inductive LoopOutcome where
  | exited
  | running
deriving DecidableEq, Repr

/-- The listener thread's loop body, iterated over a finite trace of
`recv_from_server()` results. `Some(Exit(_))` sends `ClientExited` and
breaks (an `Error` reason is additionally printed); `Some(Render(bytes))`
pushes the bytes onto the render channel; everything else — including
`None` — falls into the `_` arm and the loop iterates again. Returns the
render-channel pushes, the handle sends, and the outcome. -/
def listener_loop : List (Option (ServerToClientMsg × Unit)) →
    List String × List ClientToServerMsg × LoopOutcome
  | [] => ([], [], .running)
  | r :: rest =>
    match r with
    | some (.Exit _, _) => ([], [.ClientExited], .exited)
    | some (.Render bytes, _) =>
        let x := listener_loop rest
        (bytes :: x.1, x.2.1, x.2.2)
    | _ => listener_loop rest

/-- The external functions `zellij_server_listener` calls:
`get_terminal_size_using_fd(0)`, `config.theme_config(theme)` (a method of
the configuration module, not of this file) and `os_input.load_palette()`. -/
structure ListenerDeps where
  terminal_size : Size
  theme_config : Option Nat → Option Palette
  load_palette : Palette

/-- The `client_attributes` value composed in `zellij_server_listener`:
browser-reported size plus a style whose palette falls back from the
configured theme to the OS palette. -/
def client_attributes_of (deps : ListenerDeps) (config : Config)
    (config_options : Options) : ClientAttributes :=
  let palette := (deps.theme_config config_options.theme).getD deps.load_palette
  { size := deps.terminal_size
    style := { colors := palette
               rounded_corners := config.ui.pane_frames.rounded_corners
               hide_session_name := config.ui.pane_frames.hide_session_name } }

/-- The observable effects of `zellij_server_listener`: render-channel
pushes in order, the handle sends performed synchronously before the thread
spawns, the thread's handle sends, and the loop outcome. -/
structure ListenerRun where
  stdout_pushes : List String
  handle_sends_pre : List ClientToServerMsg
  thread_sends : List ClientToServerMsg
  outcome : LoopOutcome
deriving DecidableEq, Repr

/-- Model of `zellij_server_listener`: push the five preamble strings, compose the
attributes, send `AttachClient(attrs, config, options, None, None, true)`
on the freshly connected handle, then run the listener loop over the given
`recv` trace. The preamble pushes and the `AttachClient` send all happen
before the thread spawns, so every loop effect comes after them. -/
def zellij_server_listener (deps : ListenerDeps) (config : Config)
    (config_options : Options)
    (trace : List (Option (ServerToClientMsg × Unit))) : ListenerRun :=
  let client_attributes := client_attributes_of deps config config_options
  let is_web_client := true
  let first_message : ClientToServerMsg :=
    .AttachClient client_attributes config config_options none none is_web_client
  let x := listener_loop trace
  { stdout_pushes := preamble ++ x.1
    handle_sends_pre := [first_message]
    thread_sends := x.2.1
    outcome := x.2.2 }

/-! ## Connection registry

`ConnectionTable` is a mutex-guarded `HashMap<String, Arc<Mutex<Box<dyn
ClientOsApi>>>>`; handles are identified here by a numeric token and the
map is an association list with `HashMap` insert/lookup semantics. -/

/-- Model of `HashMap::get` (then `cloned()`): lookup by identifier. -/
def registry_get (t : List (String × Nat)) (k : String) : Option Nat :=
  (t.find? (fun p => p.1 = k)).map Prod.snd

/-- Model of `HashMap::insert`: bind `k` to `v`, replacing any previous binding. -/
def registry_insert (t : List (String × Nat)) (k : String) (v : Nat) :
    List (String × Nat) :=
  (k, v) :: t.filter (fun p => p.1 ≠ k)

/-! ## WebSocket channel handlers

A WebSocket stream item is `Option<Result<Message, Error>>`; both loops run
`while let Some(Ok(msg)) = next()`, so a finite trace is a
`List (Except Unit WsMsg)` and the loop stops at the first `.error` or at
the end of the list. JSON deserialization is external (`serde_json`), so a
text frame carries its parse result directly: `none` models a frame whose
JSON failed to parse. -/

/-- A control frame: `{ web_client_id, message }`. -/
structure ControlMessage where
  web_client_id : String
  message : ClientToServerMsg
deriving DecidableEq, Repr

/-- A stdin frame: `{ web_client_id, stdin }`. -/
structure StdinMessage where
  web_client_id : String
  stdin : String
deriving DecidableEq, Repr

/-- A WebSocket message as seen by `handle_ws_control`. -/
inductive CtrlWsMsg where
  | Text : Option ControlMessage → CtrlWsMsg
  | NonText : CtrlWsMsg
deriving DecidableEq, Repr

/-- A WebSocket message as seen by the terminal channel's stdin loop. -/
inductive TermWsMsg where
  | Text : Option StdinMessage → TermWsMsg
  | NonText : TermWsMsg
deriving DecidableEq, Repr

/-- Model of the receive loop of `handle_ws_control`: parse failures, non-text frames and
unknown identifiers are logged and skipped; otherwise the frame's `message`
is forwarded verbatim through the looked-up handle. Returns the sends as
(handle, message) pairs in order. -/
def handle_ws_control (registry : List (String × Nat)) :
    List (Except Unit CtrlWsMsg) → List (Nat × ClientToServerMsg)
  | [] => []
  | .error _ :: _ => []
  | .ok .NonText :: rest => handle_ws_control registry rest
  | .ok (.Text none) :: rest => handle_ws_control registry rest
  | .ok (.Text (some m)) :: rest =>
      match registry_get registry m.web_client_id with
      | none => handle_ws_control registry rest
      | some h => (h, m.message) :: handle_ws_control registry rest

/-- The terminal channel's stdin receive loop: for each well-parsed text
frame whose identifier is in the registry, run `parse_stdin` against the
looked-up handle, threading the mouse carry state; otherwise log and skip.
Returns the sends as (handle, message) pairs and the final carry state. -/
def terminal_loop (registry : List (String × Nat)) (deps : StdinDeps)
    (explicitly_disable_kitty_keyboard_protocol : Bool) :
    List (Except Unit TermWsMsg) → ZMouseEvent →
    List (Nat × ClientToServerMsg) × ZMouseEvent
  | [], carry => ([], carry)
  | .error _ :: _, carry => ([], carry)
  | .ok .NonText :: rest, carry =>
      terminal_loop registry deps explicitly_disable_kitty_keyboard_protocol rest carry
  | .ok (.Text none) :: rest, carry =>
      terminal_loop registry deps explicitly_disable_kitty_keyboard_protocol rest carry
  | .ok (.Text (some m)) :: rest, carry =>
      match registry_get registry m.web_client_id with
      | none =>
          terminal_loop registry deps explicitly_disable_kitty_keyboard_protocol rest carry
      | some h =>
          let x := parse_stdin deps (stringBytes m.stdin) carry
            explicitly_disable_kitty_keyboard_protocol
          let y := terminal_loop registry deps
            explicitly_disable_kitty_keyboard_protocol rest x.2
          (x.1.map (fun ms => (h, ms)) ++ y.1, y.2)

/-- The flag `explicitly_disable_kitty_keyboard_protocol`, computed in
`handle_ws_terminal` from `state.config.options`:
`support_kitty_keyboard_protocol.map(|e| !e).unwrap_or(false)`. -/
def explicitly_disable_kitty (config : Config) : Bool :=
  (config.options.support_kitty_keyboard_protocol.map (fun e => !e)).getD false

/-- The observable effects of `handle_ws_terminal`: the registry after the
handler returns, the listener's effects, the stdin loop's sends, the final
`ClientExited` send, the final carry state, and the identifiers involved. -/
structure TerminalRun where
  registry_after : List (String × Nat)
  listener : ListenerRun
  loop_sends : List (Nat × ClientToServerMsg)
  final_send : Nat × ClientToServerMsg
  mouse_final : ZMouseEvent
  web_client_id : String
  handle : Nat
deriving Repr

/-- Model of `handle_ws_terminal`: resolve the session name, mint an identifier
(`web_client_id`, a fresh UUID, here a parameter), create the OS-input
handle (here a token), insert it into the registry, run
`zellij_server_listener` synchronously (its `AttachClient` send precedes
the thread spawn and the loop), then run the stdin receive loop and finally
send `ClientExited` on the owned handle. The source never removes the
registry entry, so `registry_after` is the table right after insertion. -/
def handle_ws_terminal (ldeps : ListenerDeps) (sdeps : StdinDeps)
    (registry : List (String × Nat)) (state_session_name : String)
    (config : Config) (config_options : Options) (path : Option String)
    (web_client_id : String) (os_input : Nat)
    (frames : List (Except Unit TermWsMsg))
    (trace : List (Option (ServerToClientMsg × Unit))) : TerminalRun :=
  let _session_name := path.getD state_session_name
  let registry2 := registry_insert registry web_client_id os_input
  let listener := zellij_server_listener ldeps config config_options trace
  let disable := explicitly_disable_kitty config
  let mouse_old_event := ZMouseEvent.new
  let x := terminal_loop registry2 sdeps disable frames mouse_old_event
  { registry_after := registry2
    listener := listener
    loop_sends := x.1
    final_send := (os_input, .ClientExited)
    mouse_final := x.2
    web_client_id := web_client_id
    handle := os_input }

/-- All sends performed by the handler task itself (the stdin loop's sends
followed by the `ClientExited` emitted when the loop exits); the listener
thread's sends are reported separately in `listener.thread_sends`. -/
def TerminalRun.task_sends (r : TerminalRun) : List (Nat × ClientToServerMsg) :=
  r.loop_sends ++ [r.final_send]

/-! ## Concrete instantiations

Closed sample values used to evaluate the model on concrete inputs. -/

/-- Sample externals whose kitty parser accepts everything. -/
def demoKittyDeps : StdinDeps where
  kittyParse := fun _ => some ⟨7⟩
  termwizParse := fun _ => []
  cast_termwiz_key := fun _ _ _ => ⟨0⟩
  from_termwiz := fun c _ => ⟨c, c⟩

/-- Sample externals whose kitty parser rejects everything and whose termwiz
parser splits every buffer into two key events. -/
def demoLegacyDeps : StdinDeps where
  kittyParse := fun _ => none
  termwizParse := fun _ => [.Key ⟨1⟩, .Key ⟨2⟩]
  cast_termwiz_key := fun ke _ _ => ⟨ke.code⟩
  from_termwiz := fun c m => ⟨⟨c.state + m.code⟩, ⟨m.code⟩⟩

/-- Sample listener externals. -/
def demoListenerDeps : ListenerDeps where
  terminal_size := ⟨24, 80⟩
  theme_config := fun _ => none
  load_palette := ⟨0⟩

/-- Sample configuration (no kitty option, no theme). -/
def demoConfig : Config := ⟨⟨none, none⟩, ⟨⟨true, false⟩⟩⟩

/-- Sample configuration options. -/
def demoOptions : Options := ⟨none, none⟩

/-- Sample embedded asset tree holding a single wasm file. -/
def demoAssets : AssetsDir := ⟨[⟨"app.wasm", [0, 1]⟩]⟩

/-! ## Helper lemmas -/

theorem legacyEvents_key_raw (deps : StdinDeps) (buf : List UInt8) :
    ∀ (evs : List InputEvent) (carry : ZMouseEvent) (k : KeyWithModifier)
      (raw : List UInt8) (fe : Bool),
      ClientToServerMsg.Key k raw fe ∈ (legacyEvents deps buf evs carry).1 →
      raw = buf := by
  intro evs
  induction evs with
  | nil => intro carry k raw fe h; simp [legacyEvents] at h
  | cons e rest ih =>
    intro carry k raw fe h
    cases e with
    | Key ke =>
      simp [legacyEvents] at h
      rcases h with ⟨_, hraw, _⟩ | h
      · exact hraw
      · exact ih carry k raw fe h
    | Mouse me =>
      simp [legacyEvents] at h
      exact ih _ k raw fe h
    | Other n =>
      simp [legacyEvents] at h
      exact ih carry k raw fe h

theorem legacyEvents_no_client_exited (deps : StdinDeps) (buf : List UInt8) :
    ∀ (evs : List InputEvent) (carry : ZMouseEvent),
      ClientToServerMsg.ClientExited ∉ (legacyEvents deps buf evs carry).1 := by
  intro evs
  induction evs with
  | nil => intro carry; simp [legacyEvents]
  | cons e rest ih =>
    intro carry
    cases e with
    | Key ke => simp [legacyEvents]; exact ih carry
    | Mouse me => simp [legacyEvents]; exact ih _
    | Other n => simp [legacyEvents]; exact ih carry

theorem legacyEvents_carry_no_mouse (deps : StdinDeps) (buf : List UInt8) :
    ∀ (evs : List InputEvent) (carry : ZMouseEvent),
      (∀ e ∈ evs, ∀ m, e ≠ InputEvent.Mouse m) →
      (legacyEvents deps buf evs carry).2 = carry := by
  intro evs
  induction evs with
  | nil => intro carry _; simp [legacyEvents]
  | cons e rest ih =>
    intro carry hnm
    cases e with
    | Key ke =>
      simp [legacyEvents]
      exact ih carry (fun e he m => hnm e (List.mem_cons_of_mem _ he) m)
    | Mouse me => exact absurd rfl (hnm (.Mouse me) (List.mem_cons_self _ _) me)
    | Other n =>
      simp [legacyEvents]
      exact ih carry (fun e he m => hnm e (List.mem_cons_of_mem _ he) m)

theorem parse_stdin_key_raw (deps : StdinDeps) (buf : List UInt8)
    (carry : ZMouseEvent) (disable : Bool) (k : KeyWithModifier)
    (raw : List UInt8) (fe : Bool)
    (h : ClientToServerMsg.Key k raw fe ∈ (parse_stdin deps buf carry disable).1) :
    raw = buf := by
  unfold parse_stdin at h
  cases disable with
  | true => exact legacyEvents_key_raw deps buf _ carry k raw fe (by simpa using h)
  | false =>
    cases hk : deps.kittyParse buf with
    | none =>
      rw [hk] at h
      exact legacyEvents_key_raw deps buf _ carry k raw fe (by simpa using h)
    | some kw =>
      rw [hk] at h
      simp at h
      exact h.2.1

theorem parse_stdin_no_client_exited (deps : StdinDeps) (buf : List UInt8)
    (carry : ZMouseEvent) (disable : Bool) :
    ClientToServerMsg.ClientExited ∉ (parse_stdin deps buf carry disable).1 := by
  unfold parse_stdin
  cases disable with
  | true => simpa using legacyEvents_no_client_exited deps buf _ carry
  | false =>
    cases hk : deps.kittyParse buf with
    | none => simpa using legacyEvents_no_client_exited deps buf _ carry
    | some kw => simp

theorem terminal_loop_no_client_exited (registry : List (String × Nat))
    (deps : StdinDeps) (disable : Bool) :
    ∀ (frames : List (Except Unit TermWsMsg)) (carry : ZMouseEvent)
      (p : Nat × ClientToServerMsg),
      p ∈ (terminal_loop registry deps disable frames carry).1 →
      p.2 ≠ ClientToServerMsg.ClientExited := by
  intro frames
  induction frames with
  | nil => intro carry p hp; simp [terminal_loop] at hp
  | cons f rest ih =>
    intro carry p hp
    match f with
    | .error e => simp [terminal_loop] at hp
    | .ok .NonText =>
      rw [terminal_loop] at hp
      exact ih carry p hp
    | .ok (.Text none) =>
      rw [terminal_loop] at hp
      exact ih carry p hp
    | .ok (.Text (some m)) =>
      rw [terminal_loop] at hp
      cases hr : registry_get registry m.web_client_id with
      | none =>
        rw [hr] at hp
        exact ih carry p hp
      | some h =>
        rw [hr] at hp
        simp at hp
        rcases hp with ⟨ms, hms, hp⟩ | hp
        · intro hc
          rw [← hp] at hc
          simp at hc
          exact parse_stdin_no_client_exited deps (stringBytes m.stdin) carry disable
            (hc ▸ hms)
        · exact ih _ p hp

theorem registry_get_insert (t : List (String × Nat)) (k : String) (v : Nat) :
    registry_get (registry_insert t k v) k = some v := by
  simp [registry_get, registry_insert]

theorem listener_loop_push_mem :
    ∀ (trace : List (Option (ServerToClientMsg × Unit))) (s : String),
      s ∈ (listener_loop trace).1 → some (ServerToClientMsg.Render s, ()) ∈ trace := by
  intro trace
  induction trace with
  | nil => intro s hs; simp [listener_loop] at hs
  | cons r rest ih =>
    intro s hs
    match r with
    | none =>
      exact List.mem_cons_of_mem _ (ih s hs)
    | some (.Exit reason, c) =>
      exact absurd (hs : s ∈ ([] : List String)) (List.not_mem_nil s)
    | some (.Render b, c) =>
      cases c
      rcases List.mem_cons.mp (hs : s ∈ b :: (listener_loop rest).1) with hs' | hs'
      · rw [hs']; exact List.mem_cons_self _ _
      · exact List.mem_cons_of_mem _ (ih s hs')
    | some (.Other n, c) =>
      exact List.mem_cons_of_mem _ (ih s hs)

theorem listener_loop_exited_iff :
    ∀ trace : List (Option (ServerToClientMsg × Unit)),
      (listener_loop trace).2.2 = LoopOutcome.exited ↔
        ∃ reason, some (ServerToClientMsg.Exit reason, ()) ∈ trace := by
  intro trace
  induction trace with
  | nil => simp [listener_loop]
  | cons r rest ih =>
    match r with
    | none =>
      constructor
      · intro h
        obtain ⟨reason, hr⟩ := ih.mp h
        exact ⟨reason, List.mem_cons_of_mem _ hr⟩
      · intro ⟨reason, hr⟩
        rcases List.mem_cons.mp hr with hr | hr
        · exact absurd hr (Option.some_ne_none _)
        · exact ih.mpr ⟨reason, hr⟩
    | some (.Exit reason, c) =>
      cases c
      exact ⟨fun _ => ⟨reason, List.mem_cons_self _ _⟩, fun _ => rfl⟩
    | some (.Render b, c) =>
      cases c
      constructor
      · intro h
        obtain ⟨reason, hr⟩ := ih.mp h
        exact ⟨reason, List.mem_cons_of_mem _ hr⟩
      · intro ⟨reason, hr⟩
        rcases List.mem_cons.mp hr with hr | hr
        · simp at hr
        · exact ih.mpr ⟨reason, hr⟩
    | some (.Other n, c) =>
      cases c
      constructor
      · intro h
        obtain ⟨reason, hr⟩ := ih.mp h
        exact ⟨reason, List.mem_cons_of_mem _ hr⟩
      · intro ⟨reason, hr⟩
        rcases List.mem_cons.mp hr with hr | hr
        · simp at hr
        · exact ih.mpr ⟨reason, hr⟩

/-! ## Claim theorems -/

/-- C1 (amended): when the terminal channel's inbound receive loop exits —
for any frame sequence, whether the socket closed cleanly or with an
error — exactly one `ClientExited` is sent to the server through that
channel's handle; however, the connection registry still contains the
channel's web-client identifier afterwards: the source never removes the
entry. -/
theorem c1_client_exited_once_registry_kept (ldeps : ListenerDeps)
    (sdeps : StdinDeps) (registry : List (String × Nat))
    (state_session_name : String) (config : Config) (config_options : Options)
    (path : Option String) (web_client_id : String) (os_input : Nat)
    (frames : List (Except Unit TermWsMsg))
    (trace : List (Option (ServerToClientMsg × Unit))) :
    ((handle_ws_terminal ldeps sdeps registry state_session_name config
        config_options path web_client_id os_input frames trace).task_sends.countP
      (fun p => decide (p.1 = os_input ∧ p.2 = ClientToServerMsg.ClientExited)) = 1) ∧
    registry_get (handle_ws_terminal ldeps sdeps registry state_session_name config
        config_options path web_client_id os_input frames trace).registry_after
      web_client_id = some os_input := by
  constructor
  · show ((terminal_loop (registry_insert registry web_client_id os_input) sdeps
        (explicitly_disable_kitty config) frames ZMouseEvent.new).1 ++
          [(os_input, ClientToServerMsg.ClientExited)]).countP
        (fun p => decide (p.1 = os_input ∧ p.2 = ClientToServerMsg.ClientExited)) = 1
    rw [List.countP_append]
    have h0 : (terminal_loop (registry_insert registry web_client_id os_input) sdeps
        (explicitly_disable_kitty config) frames ZMouseEvent.new).1.countP
        (fun p => decide (p.1 = os_input ∧ p.2 = ClientToServerMsg.ClientExited)) = 0 := by
      rw [List.countP_eq_zero]
      intro p hp
      simp only [decide_eq_true_eq, not_and]
      intro _
      exact terminal_loop_no_client_exited _ _ _ frames _ p hp
    rw [h0]
    simp [List.countP_cons]
  · show registry_get (registry_insert registry web_client_id os_input)
        web_client_id = some os_input
    exact registry_get_insert registry web_client_id os_input

/-- C1 (counterexample): on a fresh attach of identifier `"w"` with handle
`0` into an empty registry, after the inbound loop exits (no frames) the
registry still contains `"w"` — refuting the claim that the registry no
longer contains the channel's identifier afterwards. -/
theorem c1_counterexample :
    registry_get (handle_ws_terminal demoListenerDeps demoKittyDeps [] "sess"
        demoConfig demoOptions none "w" 0 [] []).registry_after "w" ≠ none := by
  decide

/-- C2 (amended): the server-listener loop terminates exactly when it
receives an `Exit` message from the server; when `recv` yields `None` (or
any non-`Exit`, non-`Render` message), the loop iterates again rather than
exiting. -/
theorem c2_loop_exits_iff_exit_msg (deps : ListenerDeps) (config : Config)
    (config_options : Options)
    (trace : List (Option (ServerToClientMsg × Unit))) :
    (zellij_server_listener deps config config_options trace).outcome =
        LoopOutcome.exited ↔
      ∃ reason, some (ServerToClientMsg.Exit reason, ()) ∈ trace :=
  listener_loop_exited_iff trace

/-- C2 (counterexample): after `recv` yields `None` the loop does not exit:
with trace `[none]` it is still running, and with `[none, Render "x"]` it
processes the `Render` that follows the `None` — so the loop iterates again
after `recv` returns `None`, contrary to the claim. -/
theorem c2_counterexample :
    (zellij_server_listener demoListenerDeps demoConfig demoOptions
        [none]).outcome = LoopOutcome.running ∧
    (zellij_server_listener demoListenerDeps demoConfig demoOptions
        [none, some (.Render "x", ())]).stdout_pushes.drop 5 = ["x"] :=
  ⟨rfl, rfl⟩

/-- C3: if the extended keyboard protocol is not disabled and the kitty
parser accepts the whole buffer, the decoder emits exactly one
`Key(key, buf, from_extended = true)` and performs no legacy parsing: the
result is exactly that one message and the carry state is untouched. -/
theorem c3_extended_keyboard_preference (deps : StdinDeps) (buf : List UInt8)
    (carry : ZMouseEvent) (k : KeyWithModifier)
    (h : deps.kittyParse buf = some k) :
    parse_stdin deps buf carry false = ([ClientToServerMsg.Key k buf true], carry) := by
  simp [parse_stdin, h]

/-- C3 (witness): concrete run of the extended-keyboard fast path. -/
theorem c3_witness :
    demoKittyDeps.kittyParse [(97 : UInt8)] = some ⟨7⟩ ∧
    parse_stdin demoKittyDeps [(97 : UInt8)] ⟨0⟩ false =
      ([ClientToServerMsg.Key ⟨7⟩ [(97 : UInt8)] true], ⟨0⟩) :=
  ⟨rfl, c3_extended_keyboard_preference demoKittyDeps [(97 : UInt8)] ⟨0⟩ ⟨7⟩ rfl⟩

/-- C4: on a fresh terminal-channel attach, the first five strings pushed
onto the render channel are exactly the preamble — reset attributes, enter
alternate screen, enable bracketed paste, enable mouse modes, enter
extended keyboard mode — in that order; and every later push is a `Render`
payload received from the server, so all five precede any `Render` byte. -/
theorem c4_attach_preamble (deps : ListenerDeps) (config : Config)
    (config_options : Options)
    (trace : List (Option (ServerToClientMsg × Unit))) :
    (zellij_server_listener deps config config_options trace).stdout_pushes.take 5 =
      [clear_client_terminal_attributes, enter_alternate_screen, bracketed_paste,
       enable_mouse_mode, enter_kitty_keyboard_mode] ∧
    ∀ s ∈ (zellij_server_listener deps config config_options trace).stdout_pushes.drop 5,
      some (ServerToClientMsg.Render s, ()) ∈ trace := by
  refine ⟨rfl, ?_⟩
  intro s hs
  exact listener_loop_push_mem trace s hs

/-- C4 (witness): concrete attach with one `Render` from the server. -/
theorem c4_witness :
    (zellij_server_listener demoListenerDeps demoConfig demoOptions
        [some (.Render "x", ())]).stdout_pushes.take 5 =
      [clear_client_terminal_attributes, enter_alternate_screen, bracketed_paste,
       enable_mouse_mode, enter_kitty_keyboard_mode] ∧
    some (ServerToClientMsg.Render "x", ())
      ∈ ([some (.Render "x", ())] : List (Option (ServerToClientMsg × Unit))) :=
  ⟨(c4_attach_preamble demoListenerDeps demoConfig demoOptions
      [some (.Render "x", ())]).1,
   (c4_attach_preamble demoListenerDeps demoConfig demoOptions
      [some (.Render "x", ())]).2 "x" (List.mem_singleton.mpr rfl)⟩

/-- C5: on every terminal-channel attach, the first message sent through
the handle to the server is
`AttachClient(client_attributes, config, options, None, None, true)`: the
sends performed before the receive loop and the listener thread start are
exactly that message, so whatever the later interleaving of sends, the
channel's send trace begins with it. -/
theorem c5_attach_client_first (ldeps : ListenerDeps) (sdeps : StdinDeps)
    (registry : List (String × Nat)) (state_session_name : String)
    (config : Config) (config_options : Options) (path : Option String)
    (web_client_id : String) (os_input : Nat)
    (frames : List (Except Unit TermWsMsg))
    (trace : List (Option (ServerToClientMsg × Unit))) :
    ∀ later : List ClientToServerMsg,
      ((handle_ws_terminal ldeps sdeps registry state_session_name config
          config_options path web_client_id os_input frames
          trace).listener.handle_sends_pre ++ later).head? =
        some (ClientToServerMsg.AttachClient
          (client_attributes_of ldeps config config_options) config config_options
          none none true) := by
  intro later
  rfl

/-- C6: a control or stdin text frame whose `web_client_id` is absent from
the registry at receipt causes no send on any handle: the frame is dropped
and the loop continues with the remaining frames, on both the control and
the terminal channel. -/
theorem c6_unknown_id_dropped (registry : List (String × Nat)) (id : String)
    (sdeps : StdinDeps) (disable : Bool) (msg : ClientToServerMsg)
    (stdin : String) (carry : ZMouseEvent)
    (restC : List (Except Unit CtrlWsMsg)) (restT : List (Except Unit TermWsMsg))
    (h : registry_get registry id = none) :
    handle_ws_control registry (.ok (.Text (some ⟨id, msg⟩)) :: restC) =
      handle_ws_control registry restC ∧
    terminal_loop registry sdeps disable
        (.ok (.Text (some ⟨id, stdin⟩)) :: restT) carry =
      terminal_loop registry sdeps disable restT carry := by
  constructor
  · simp [handle_ws_control, h]
  · simp [terminal_loop, h]

/-- C6 (witness): a frame addressed to `"w"` against the empty registry is
dropped on both channels. -/
theorem c6_witness :
    handle_ws_control [] [.ok (.Text (some ⟨"w", ClientToServerMsg.ClientExited⟩))] =
      handle_ws_control [] ([] : List (Except Unit CtrlWsMsg)) ∧
    terminal_loop [] demoKittyDeps false [.ok (.Text (some ⟨"w", "a"⟩))] ⟨0⟩ =
      terminal_loop [] demoKittyDeps false ([] : List (Except Unit TermWsMsg)) ⟨0⟩ :=
  c6_unknown_id_dropped [] "w" demoKittyDeps false ClientToServerMsg.ClientExited
    "a" ⟨0⟩ [] [] rfl

/-- C7: `GET /assets/{path}` serves the embedded file with the
extension-derived content type — `.html`, `.css`, `.js`, `.wasm`, `.png`,
`.ico`, `.svg` map to their types and any other or missing extension maps
to `text/plain` — and an absent file yields body `"Not Found"` with content
type `text/html`. -/
theorem c7_static_asset_serving :
    ∀ (dir : AssetsDir) (path : String),
      (dir.get_file (String.mk (trimStartSlash path.data)) = none →
        get_static_asset dir path =
          { content_type := "text/html", body := stringBytes "Not Found" }) ∧
      (∀ file, dir.get_file (String.mk (trimStartSlash path.data)) = some file →
        get_static_asset dir path =
          { content_type :=
              get_mime_type ((rust_extension file.path.data).map String.mk),
            body := file.contents }) ∧
      get_mime_type none = "text/plain" ∧
      get_mime_type (some "html") = "text/html" ∧
      get_mime_type (some "css") = "text/css" ∧
      get_mime_type (some "js") = "application/javascript" ∧
      get_mime_type (some "wasm") = "application/wasm" ∧
      get_mime_type (some "png") = "image/png" ∧
      get_mime_type (some "ico") = "image/x-icon" ∧
      get_mime_type (some "svg") = "image/svg+xml" ∧
      (∀ e : String,
        e ∉ (["html", "css", "js", "wasm", "png", "ico", "svg"] : List String) →
        get_mime_type (some e) = "text/plain") := by
  intro dir path
  refine ⟨?_, ?_, rfl, rfl, rfl, rfl, rfl, rfl, rfl, rfl, ?_⟩
  · intro h
    simp [get_static_asset, h]
  · intro file h
    simp [get_static_asset, h]
  · intro e he
    simp only [List.mem_cons, List.not_mem_nil, or_false] at he
    push_neg at he
    obtain ⟨h1, h2, h3, h4, h5, h6, h7⟩ := he
    simp [get_mime_type, h1, h2, h3, h4, h5, h6, h7]

/-- C7 (witness): the sample tree serves `app.wasm` as `application/wasm`
and a missing path as `"Not Found"` with `text/html`. -/
theorem c7_witness :
    get_static_asset demoAssets "app.wasm" =
      { content_type := "application/wasm", body := [0, 1] } ∧
    get_static_asset demoAssets "missing" =
      { content_type := "text/html", body := stringBytes "Not Found" } := by
  constructor
  · have h := (c7_static_asset_serving demoAssets "app.wasm").2.1
      ⟨"app.wasm", [0, 1]⟩ rfl
    rw [h]
    decide
  · exact (c7_static_asset_serving demoAssets "missing").1 rfl

/-- C8: the disable-extended-keyboard flag is true exactly when the
"support kitty keyboard protocol" option is explicitly `Some(false)`; when
the option is absent or `Some(true)` the extended protocol stays enabled. -/
theorem c8_kitty_flag_tristate :
    ∀ config : Config,
      (explicitly_disable_kitty config = true ↔
        config.options.support_kitty_keyboard_protocol = some false) ∧
      (explicitly_disable_kitty config = false ↔
        (config.options.support_kitty_keyboard_protocol = none ∨
         config.options.support_kitty_keyboard_protocol = some true)) := by
  intro config
  cases h : config.options.support_kitty_keyboard_protocol with
  | none => simp [explicitly_disable_kitty, h]
  | some b => cases b <;> simp [explicitly_disable_kitty, h]

/-- C9: every `Key` message the decoder sends carries the entire original
stdin buffer as its raw-bytes field — in particular, in the legacy path a
buffer split into several key events yields several `Key` messages, each
repeating the full buffer rather than only its own bytes. -/
theorem c9_legacy_key_raw_is_whole_buffer (deps : StdinDeps) (buf : List UInt8)
    (carry : ZMouseEvent) (disable : Bool) (k : KeyWithModifier)
    (raw : List UInt8) (fe : Bool)
    (h : ClientToServerMsg.Key k raw fe ∈ (parse_stdin deps buf carry disable).1) :
    raw = buf := by
  unfold parse_stdin at h
  cases disable with
  | true => exact legacyEvents_key_raw deps buf _ carry k raw fe (by simpa using h)
  | false =>
    cases hk : deps.kittyParse buf with
    | none =>
      rw [hk] at h
      exact legacyEvents_key_raw deps buf _ carry k raw fe (by simpa using h)
    | some kw =>
      rw [hk] at h
      simp at h
      exact h.2.1

/-- C9 (witness): a one-byte buffer split into two legacy key events; the
first resulting `Key` carries the whole buffer. -/
theorem c9_witness :
    ClientToServerMsg.Key ⟨1⟩ [(97 : UInt8)] false
      ∈ (parse_stdin demoLegacyDeps [(97 : UInt8)] ⟨0⟩ true).1 ∧
    ([(97 : UInt8)] : List UInt8) = [(97 : UInt8)] := by
  have hm : ClientToServerMsg.Key ⟨1⟩ [(97 : UInt8)] false
      ∈ (parse_stdin demoLegacyDeps [(97 : UInt8)] ⟨0⟩ true).1 := by
    decide
  exact ⟨hm, c9_legacy_key_raw_is_whole_buffer demoLegacyDeps [(97 : UInt8)] ⟨0⟩
    true ⟨1⟩ [(97 : UInt8)] false hm⟩

/-- C10: if the extended-keyboard parse of a stdin buffer succeeds, the
per-channel mouse carry state is left unchanged by the decoder; and in any
run whose legacy events contain no mouse event, the carry state is also
unchanged — only legacy mouse events ever mutate it. -/
theorem c10_mouse_carry_untouched (deps : StdinDeps) (buf : List UInt8)
    (carry : ZMouseEvent) :
    (∀ k, deps.kittyParse buf = some k →
      (parse_stdin deps buf carry false).2 = carry) ∧
    (∀ disable : Bool,
      (∀ e ∈ deps.termwizParse buf, ∀ m, e ≠ InputEvent.Mouse m) →
      (parse_stdin deps buf carry disable).2 = carry) := by
  constructor
  · intro k h
    simp [parse_stdin, h]
  · intro disable hnm
    unfold parse_stdin
    cases disable with
    | true => simpa using legacyEvents_carry_no_mouse deps buf _ carry hnm
    | false =>
      cases hk : deps.kittyParse buf with
      | none => simp [hk]; exact legacyEvents_carry_no_mouse deps buf _ carry hnm
      | some kw => simp [hk]

/-- C10 (witness): concrete runs — the kitty fast path and a mouse-free
legacy run — both leave the carry state `⟨3⟩` unchanged. -/
theorem c10_witness :
    (parse_stdin demoKittyDeps [(97 : UInt8)] ⟨3⟩ false).2 = ⟨3⟩ ∧
    (parse_stdin demoLegacyDeps [(97 : UInt8)] ⟨3⟩ true).2 = ⟨3⟩ := by
  constructor
  · exact (c10_mouse_carry_untouched demoKittyDeps [(97 : UInt8)] ⟨3⟩).1 ⟨7⟩ rfl
  · refine (c10_mouse_carry_untouched demoLegacyDeps [(97 : UInt8)] ⟨3⟩).2 true ?_
    intro e he m
    simp only [demoLegacyDeps] at he
    rcases List.mem_cons.mp he with h | h
    · subst h; simp
    · rcases List.mem_cons.mp h with h | h
      · subst h; simp
      · simp at h

end WebClient
